import Mathlib

/-!
Verification of the canister-fuzzing framework's core against its
specification.  The development shallowly embeds the relevant source
functions:

* `instrumentation.rs` — the AFL-style Wasm rewriter
  (`instrument_wasm_for_fuzzing`, `instrument_for_afl`, `inject_globals`,
  `ensure_ic0_imports`, `inject_afl_coverage_export`,
  `afl_instrumentation_slice`, `instrument_branches`, `validate_wasm`);
* `util.rs` — `parse_canister_result_for_trap`;
* `fuzzer.rs` — `FuzzerState`, `FuzzerBuilder`, `CanisterInfo`;
* `custom/candid_mutator.rs` — the schema-aware IDL mutator
  (`mutate_value`, `mutate_text`, `mutate_blob`, `mutate_vec`, ...).

External collaborators (the `wirm` parser/encoder, the `wasmparser`
validator, the `rand` crate, the candid random generator, float
arithmetic) are abstracted as explicit function parameters; Rust panics
are modelled as `Option.none`; machine integers are `Nat` with explicit
reductions `% 2 ^ w` where the code wraps.
-/

set_option maxRecDepth 4000

namespace Canfuzz

/-- `AFL_COVERAGE_MAP_SIZE` from `constants.rs` (2^16, standard for AFL). -/
def AFL_COVERAGE_MAP_SIZE : Nat := 65536

/-- `API_VERSION_IC0` from `constants.rs`. -/
def API_VERSION_IC0 : String := "ic0"

/-- `COVERAGE_FN_EXPORT_NAME` from `constants.rs`. -/
def COVERAGE_FN_EXPORT_NAME : String := "__export_coverage_for_afl"

/-- The platform-visible export name built in `inject_afl_coverage_export`:
`format!("canister_update {COVERAGE_FN_EXPORT_NAME}")`. -/
def coverage_export_name : String := "canister_update " ++ COVERAGE_FN_EXPORT_NAME

/-- Abstract model of the `rand` crate's API as used by the source.  `R` is
the generator state (`StdRng`); each operation deterministically maps a
state to a result and a successor state, which models `rand`'s documented
reproducibility of `StdRng::seed_from_u64`. -/
structure RandApi (R : Type) where
  /-- `StdRng::seed_from_u64 s`. -/
  seedFrom : Nat → R
  /-- `rng.random_range(0..n)` for `0 < n` (the empty-range panic is
  modelled separately at each call site that can reach it). -/
  randRange : R → Nat → Nat × R
  /-- `rng.random::<uN>()` / `rng.random::<iN>()`: a uniform `w`-bit
  pattern. -/
  randBits : R → Nat → Nat × R
  /-- `rng.random_bool(num/den)`. -/
  randBool : R → Nat → Nat → Bool × R
  /-- `rng.fill_bytes(buf)` for a buffer of the given length. -/
  fillBytes : R → Nat → List Nat × R

/-- `rng.random_range(0..n)` exactly: Rust's `random_range` panics on an
empty range, which is modelled as `none`. -/
def randRangeChecked {R : Type} (api : RandApi R) (rng : R) (n : Nat) :
    Option (Nat × R) :=
  if n = 0 then none else some (api.randRange rng n)

/-- `Seed` from `instrumentation.rs`. -/
inductive Seed where
  | Random : Seed
  | Static : Nat → Seed
deriving DecidableEq, Repr

/-- Wasm value types (only `i32` is ever materialised by the rewriter;
`other` stands for any further value type occurring in the input). -/
inductive ValType where
  | i32 : ValType
  | other : Nat → ValType
deriving DecidableEq, Repr

/-- `wasmparser::MemArg` as used by the rewriter. -/
structure MemArg where
  offset : Nat
  align : Nat
  memory : Nat
deriving DecidableEq, Repr

/-- The subset of `wasmparser::Operator` the rewriter inspects or emits.
Every operator the rewriter neither inspects nor emits is represented by
`other`, an opaque code that `instrument_branches` copies through. -/
inductive Operator where
  | Block : Nat → Operator
  | Loop : Nat → Operator
  | If : Nat → Operator
  | Else : Operator
  | Br : Nat → Operator
  | BrIf : Nat → Operator
  | BrTable : List Nat → Nat → Operator
  | Return : Operator
  | End : Operator
  | Nop : Operator
  | I32Const : Nat → Operator
  | Call : Nat → Operator
  | LocalGet : Nat → Operator
  | LocalTee : Nat → Operator
  | GlobalGet : Nat → Operator
  | GlobalSet : Nat → Operator
  | I32Xor : Operator
  | I32Add : Operator
  | I32ShrU : Operator
  | I32Load8U : MemArg → Operator
  | I32Store8 : MemArg → Operator
  | MemoryFill : Nat → Operator
  | other : Nat → Operator
deriving DecidableEq, Repr

/-- An imported function (module name, item name, type).  Types are stored
inline rather than via the type-section index the source uses; the
function-index space and the bodies are unaffected by this bookkeeping
difference. -/
structure ImportFunc where
  moduleName : String
  name : String
  params : List ValType
  results : List ValType
deriving DecidableEq, Repr

/-- A local function: its type, added locals, and body. -/
structure LocalFunc where
  params : List ValType
  results : List ValType
  locals : List ValType
  body : List Operator
deriving DecidableEq, Repr

/-- `FuncKind` from wirm: the module's flat function list holds imported
and local functions in function-index order. -/
inductive Func where
  | imported : ImportFunc → Func
  | local_ : LocalFunc → Func
deriving DecidableEq, Repr

/-- A Wasm global as wirm materialises it: constant `i32.const` initialiser
value, type, mutability, sharedness. -/
structure WasmGlobal where
  init : Nat
  ty : ValType
  mutable_ : Bool
  shared_ : Bool
deriving DecidableEq, Repr

/-- A function export. -/
structure ExportEntry where
  name : String
  index : Nat
deriving DecidableEq, Repr

/-- The parsed Wasm module, restricted to the sections the rewriter
touches.  Function indices are positions in `functions`. -/
structure Module where
  functions : List Func
  globals : List WasmGlobal
  exports : List ExportEntry
deriving DecidableEq, Repr

/-- `module.add_global(init, ty, mutable, shared)`: appends and returns the
new global's index. -/
def add_global (m : Module) (init : Nat) (ty : ValType)
    (mutable_ shared_ : Bool) : Nat × Module :=
  (m.globals.length,
    { m with globals := m.globals ++ [⟨init, ty, mutable_, shared_⟩] })

/-- `module.imports.get_func(moduleName, name)`: the function index of the
first import with the given names, if any. -/
def get_import_func_aux :
    List Func → Nat → String → String → Option Nat
  | [], _, _, _ => none
  | f :: rest, i, mn, n =>
    match f with
    | .imported im =>
      if im.moduleName = mn ∧ im.name = n then some i
      else get_import_func_aux rest (i + 1) mn n
    | .local_ _ => get_import_func_aux rest (i + 1) mn n

/-- `module.imports.get_func` over the module. -/
def get_import_func (m : Module) (mn n : String) : Option Nat :=
  get_import_func_aux m.functions 0 mn n

/-- `module.add_import_func(module, name, type_id)`: appends the import,
returning the new function index. -/
def add_import_func (m : Module) (mn n : String)
    (params results : List ValType) : Nat × Module :=
  (m.functions.length,
    { m with functions := m.functions ++ [.imported ⟨mn, n, params, results⟩] })

/-- `FunctionBuilder::finish_module`: appends a local function with the
given type, locals and body, returning its function index. -/
def finish_module (params results locals : List ValType)
    (body : List Operator) (m : Module) : Nat × Module :=
  (m.functions.length,
    { m with functions := m.functions ++ [.local_ ⟨params, results, locals, body⟩] })

/-- `module.exports.add_export_func(name, id)`. -/
def add_export_func (m : Module) (name : String) (idx : Nat) : Module :=
  { m with exports := m.exports ++ [⟨name, idx⟩] }

/-- The loop of `inject_globals`: `history_size` mutable `i32` globals
initialised to 0, collecting their indices in order. -/
def inject_prev_loc_globals : Nat → Module → List Nat × Module
  | 0, m => ([], m)
  | n + 1, m =>
    let (gid, m1) := add_global m 0 .i32 true false
    let (rest, m2) := inject_prev_loc_globals n m1
    (gid :: rest, m2)

/-- `inject_globals` from `instrumentation.rs`: the `prev_loc` globals
followed by the immutable `mem_ptr` global. -/
def inject_globals (m : Module) (history_size : Nat) :
    (List Nat × Nat) × Module :=
  let (afl_prev_loc_indices, m1) := inject_prev_loc_globals history_size m
  let (afl_mem_ptr_idx, m2) := add_global m1 0 .i32 false false
  ((afl_prev_loc_indices, afl_mem_ptr_idx), m2)

/-- `ensure_ic0_imports` from `instrumentation.rs`: looks up
`ic0.msg_reply_data_append` and `ic0.msg_reply`, adding each (with its
function type) when absent, and returns both function indices. -/
def ensure_ic0_imports (m : Module) : (Nat × Nat) × Module :=
  let (data_append_idx, m1) :=
    match get_import_func m API_VERSION_IC0 "msg_reply_data_append" with
    | some i => (i, m)
    | none => add_import_func m API_VERSION_IC0 "msg_reply_data_append"
        [.i32, .i32] []
  let (reply_idx, m2) :=
    match get_import_func m1 API_VERSION_IC0 "msg_reply" with
    | some i => (i, m1)
    | none => add_import_func m1 API_VERSION_IC0 "msg_reply" [] []
  ((data_append_idx, reply_idx), m2)

/-- The body built by `inject_afl_coverage_export`'s `FunctionBuilder`. -/
def coverage_body (afl_mem_ptr_idx history_size data_append_idx reply_idx :
    Nat) : List Operator :=
  [.GlobalGet afl_mem_ptr_idx,
   .I32Const (AFL_COVERAGE_MAP_SIZE * history_size),
   .Call data_append_idx,
   .Call reply_idx,
   .GlobalGet afl_mem_ptr_idx,
   .I32Const 0,
   .I32Const (AFL_COVERAGE_MAP_SIZE * history_size),
   .MemoryFill 0]

/-- `inject_afl_coverage_export` from `instrumentation.rs`. -/
def inject_afl_coverage_export (m : Module) (history_size : Nat)
    (afl_mem_ptr_idx : Nat) : Module :=
  let ((data_append_idx, reply_idx), m1) := ensure_ic0_imports m
  let (coverage_function_id, m2) :=
    finish_module [] [] []
      (coverage_body afl_mem_ptr_idx history_size data_append_idx reply_idx) m1
  add_export_func m2 coverage_export_name coverage_function_id

/-- The shift segment of the helper: `for i in (1..h).rev()`, emit
`global.get prev[i-1]; i32.const 1; i32.shr_u; global.set prev[i]`. -/
def helper_shift_ops (afl_prev_loc_indices : List Nat) : List Operator :=
  ((List.range' 1 (afl_prev_loc_indices.length - 1)).reverse).flatMap
    (fun i =>
      [.GlobalGet (afl_prev_loc_indices.getD (i - 1) 0),
       .I32Const 1, .I32ShrU,
       .GlobalSet (afl_prev_loc_indices.getD i 0)])

/-- The body built by `afl_instrumentation_slice`'s `FunctionBuilder`:
the AFL coverage update.  Local 0 is the `curr_loc` parameter, local 1 the
added scratch local. -/
def helper_body (afl_prev_loc_indices : List Nat) (afl_mem_ptr_idx : Nat) :
    List Operator :=
  [.LocalGet 0]
  ++ afl_prev_loc_indices.flatMap (fun g => [.GlobalGet g, .I32Xor])
  ++ [.GlobalGet afl_mem_ptr_idx, .I32Add, .LocalTee 1, .LocalGet 1,
      .I32Load8U ⟨0, 0, 0⟩, .I32Const 1, .I32Add, .I32Store8 ⟨0, 0, 0⟩]
  ++ helper_shift_ops afl_prev_loc_indices
  ++ [.LocalGet 0, .I32Const 1, .I32ShrU,
      .GlobalSet (afl_prev_loc_indices.getD 0 0)]

/-- `afl_instrumentation_slice` from `instrumentation.rs`: appends the
helper function `(param i32) (local i32)` and returns its index. -/
def afl_instrumentation_slice (m : Module)
    (afl_prev_loc_indices : List Nat) (afl_mem_ptr_idx : Nat) :
    Nat × Module :=
  finish_module [.i32] [] [.i32]
    (helper_body afl_prev_loc_indices afl_mem_ptr_idx) m

section Instrumentation

variable {R : Type} (api : RandApi R)

/-- The `create_instrumentation_ops` closure of `instrument_branches`:
draws `curr_location` from `[0, AFL_COVERAGE_MAP_SIZE * h)` and pushes
`i32.const curr_location; call helper`. -/
def create_instrumentation_ops (bound helper_idx : Nat)
    (ops : List Operator) (rng : R) : List Operator × R :=
  let (curr_location, rng1) := api.randRange rng bound
  (ops ++ [.I32Const curr_location, .Call helper_idx], rng1)

/-- `true` exactly for `Block`, `Loop`, `If`, `Else`: the first arm of the
`match instruction` in `instrument_branches`. -/
def isControlOpener : Operator → Bool
  | .Block _ | .Loop _ | .If _ | .Else => true
  | _ => false

/-- `true` exactly for `Br`, `BrIf`, `BrTable`, `Return`: the second arm of
the `match instruction` in `instrument_branches`. -/
def isBranchOp : Operator → Bool
  | .Br _ | .BrIf _ | .BrTable _ _ | .Return => true
  | _ => false

/-- The per-instruction loop of `instrument_branches`, with the
`new_instructions` accumulator passed explicitly. -/
def instrument_ops (bound helper_idx : Nat) :
    List Operator → List Operator → R → List Operator × R
  | [], acc, rng => (acc, rng)
  | instr :: rest, acc, rng =>
    if isControlOpener instr then
      let (acc1, rng1) :=
        create_instrumentation_ops api bound helper_idx (acc ++ [instr]) rng
      instrument_ops bound helper_idx rest acc1 rng1
    else if isBranchOp instr then
      let (acc1, rng1) :=
        create_instrumentation_ops api bound helper_idx acc rng
      instrument_ops bound helper_idx rest (acc1 ++ [instr]) rng1
    else
      instrument_ops bound helper_idx rest (acc ++ [instr]) rng

/-- The function loop of `instrument_branches`: every local function whose
index differs from the helper's gets the entry pair followed by its
instrumented body; imports and the helper pass through. -/
def instrument_function_list (bound helper_idx : Nat) :
    List Func → Nat → R → List Func × R
  | [], _, rng => ([], rng)
  | f :: rest, idx, rng =>
    match f with
    | .local_ lf =>
      if idx ≠ helper_idx then
        let (entry, rng1) :=
          create_instrumentation_ops api bound helper_idx [] rng
        let (body1, rng2) :=
          instrument_ops api bound helper_idx lf.body entry rng1
        let (rest1, rng3) :=
          instrument_function_list bound helper_idx rest (idx + 1) rng2
        (.local_ { lf with body := body1 } :: rest1, rng3)
      else
        let (rest1, rng1) :=
          instrument_function_list bound helper_idx rest (idx + 1) rng
        (f :: rest1, rng1)
    | .imported _ =>
      let (rest1, rng1) :=
        instrument_function_list bound helper_idx rest (idx + 1) rng
      (f :: rest1, rng1)

/-- `instrument_branches` from `instrumentation.rs`.  `entropy` models the
value of `rand::rng().next_u32()` consumed only by `Seed::Random`. -/
def instrument_branches (m : Module) (afl_prev_loc_indices : List Nat)
    (afl_mem_ptr_idx : Nat) (seed : Seed) (entropy : Nat) : Module :=
  let (instrumentation_function, m1) :=
    afl_instrumentation_slice m afl_prev_loc_indices afl_mem_ptr_idx
  let seed_val : Nat :=
    match seed with
    | .Random => entropy
    | .Static s => s
  let rng := api.seedFrom seed_val
  let bound := AFL_COVERAGE_MAP_SIZE * afl_prev_loc_indices.length
  let (fns, _) :=
    instrument_function_list api bound instrumentation_function
      m1.functions 0 rng
  { m1 with functions := fns }

/-- `instrument_for_afl` from `instrumentation.rs` (its `Result` is always
`Ok`, so it is modelled as total). -/
def instrument_for_afl (m : Module) (history_size : Nat) (seed : Seed)
    (entropy : Nat) : Module :=
  let ((afl_prev_loc_indices, afl_mem_ptr_idx), m1) :=
    inject_globals m history_size
  let m2 := inject_afl_coverage_export m1 history_size afl_mem_ptr_idx
  instrument_branches api m2 afl_prev_loc_indices afl_mem_ptr_idx seed entropy

/-- `InstrumentationArgs` from `instrumentation.rs`. -/
structure InstrumentationArgs where
  wasm_bytes : List Nat
  history_size : Nat
  seed : Seed

/-- `instrument_wasm_for_fuzzing` from `instrumentation.rs`.  The external
`wirm` parser/encoder and the `wasmparser` validator are parameters; every
panic (`assert!`, `expect`) is `none`. -/
def instrument_wasm_for_fuzzing
    (parseModule : List Nat → Option Module)
    (encodeModule : Module → List Nat)
    (validate_wasm : List Nat → Bool)
    (args : InstrumentationArgs) (entropy : Nat) : Option (List Nat) :=
  if args.history_size = 1 ∨ args.history_size = 2 ∨
     args.history_size = 4 ∨ args.history_size = 8 then
    match parseModule args.wasm_bytes with
    | none => none
    | some m =>
      let instrumented :=
        instrument_for_afl api m args.history_size args.seed entropy
      let instrumented_wasm := encodeModule instrumented
      if validate_wasm instrumented_wasm then some instrumented_wasm
      else none
  else none

end Instrumentation

/-! ### `util.rs`: translating simulator results to exit dispositions -/

/-- The relevant variants of `pocket_ic::ErrorCode`.  `otherCode n` stands
for every remaining variant of the external enum, all of which fall into
the wildcard arm of the `match` in `parse_canister_result_for_trap`. -/
inductive ErrorCode where
  | CanisterTrapped : ErrorCode
  | CanisterCalledTrap : ErrorCode
  | CanisterMemoryAccessLimitExceeded : ErrorCode
  | InsufficientMemoryAllocation : ErrorCode
  | CanisterOutOfMemory : ErrorCode
  | CanisterWasmMemoryLimitExceeded : ErrorCode
  | CanisterInstructionLimitExceeded : ErrorCode
  | otherCode : Nat → ErrorCode
deriving DecidableEq, Repr

/-- `pocket_ic::RejectResponse` restricted to the field the source reads. -/
structure RejectResponse where
  error_code : ErrorCode
deriving DecidableEq, Repr

/-- `libafl::executors::ExitKind` restricted to the variants produced. -/
inductive ExitKind where
  | Ok : ExitKind
  | Crash : ExitKind
  | Oom : ExitKind
  | Timeout : ExitKind
deriving DecidableEq, Repr

/-- `parse_canister_result_for_trap` from `util.rs`. -/
def parse_canister_result_for_trap
    (result : Except RejectResponse (List Nat)) : ExitKind :=
  match result with
  | .ok _ => .Ok
  | .error e =>
    match e.error_code with
    | .CanisterTrapped | .CanisterCalledTrap => .Crash
    | .CanisterMemoryAccessLimitExceeded
    | .InsufficientMemoryAllocation
    | .CanisterOutOfMemory
    | .CanisterWasmMemoryLimitExceeded => .Oom
    | .CanisterInstructionLimitExceeded => .Timeout
    | .otherCode _ => .Ok

/-! ### `fuzzer.rs`: the fuzzer state and its builder -/

/-- `CanisterType` from `fuzzer.rs`. -/
inductive CanisterType where
  | Coverage : CanisterType
  | Support : CanisterType
deriving DecidableEq, Repr

/-- `WasmPath` from `fuzzer.rs`. -/
inductive WasmPath where
  | EnvVar : String → WasmPath
  | Path : String → WasmPath
deriving DecidableEq, Repr

/-- `CanisterInfo` from `fuzzer.rs`. -/
structure CanisterInfo where
  id : Option Nat
  name : String
  wasm_path : WasmPath
  ty : CanisterType
  init_args : List Nat
deriving DecidableEq, Repr

/-- `FuzzerState` from `fuzzer.rs`; `state` is the `Option<Arc<PocketIc>>`
with the external simulator instance abstracted to `Unit`. -/
structure FuzzerState where
  name : String
  state : Option Unit
  canisters : List CanisterInfo
deriving DecidableEq, Repr

/-- The number of entries with role `Coverage`. -/
def coverage_count (canisters : List CanisterInfo) : Nat :=
  (canisters.filter (fun c => c.ty = CanisterType.Coverage)).length

/-- `FuzzerState::new`: the `assert!` that exactly one canister has role
`Coverage` is a panic, modelled as `none`. -/
def FuzzerState.new (name : String) (canisters : List CanisterInfo) :
    Option FuzzerState :=
  if coverage_count canisters = 1 then some ⟨name, none, canisters⟩
  else none

/-- `FuzzerState::init_state`. -/
def FuzzerState.init_state (s : FuzzerState) : FuzzerState :=
  { s with state := some () }

/-- `FuzzerState::setup_canisters`: creates the simulator when absent and
installs every canister, setting its `id` to the simulator-assigned
identity (`assigned` gives the external `create_canister` results). -/
def FuzzerState.setup_canisters (assigned : Nat → Nat) (s : FuzzerState) :
    FuzzerState :=
  let s1 := if s.state.isNone then s.init_state else s
  { s1 with
    canisters := s1.canisters.mapIdx
      (fun i c => { c with id := some (assigned i) }) }

/-- `FuzzerBuilder` from `fuzzer.rs`. -/
structure FuzzerBuilder where
  name : String
  canisters : List CanisterInfo
deriving DecidableEq, Repr

/-- `FuzzerBuilder::new`. -/
def FuzzerBuilder.new : FuzzerBuilder := ⟨"default_fuzzer", []⟩

/-- `FuzzerBuilder::name` (renamed: the field projection takes the
source's method name). -/
def FuzzerBuilder.set_name (b : FuzzerBuilder) (name : String) :
    FuzzerBuilder :=
  { b with name := name }

/-- `FuzzerBuilder::with_canister`. -/
def FuzzerBuilder.with_canister (b : FuzzerBuilder) (c : CanisterInfo) :
    FuzzerBuilder :=
  { b with canisters := b.canisters ++ [c] }

/-- `FuzzerBuilder::build`. -/
def FuzzerBuilder.build (b : FuzzerBuilder) : Option FuzzerState :=
  FuzzerState.new b.name b.canisters

/-! ### `custom/candid_mutator.rs`: the schema-aware IDL mutator

Strings are UTF-8 byte lists; fixed-width integers are `w`-bit patterns
(`Nat < 2 ^ w`, wrapping add/sub/mul and xor are bit-pattern identical for
the signed and unsigned variants); floats are opaque bit patterns whose
arithmetic is an abstract parameter; `Rc` reference counting is abstracted
(label extraction is modelled as returning the label); every Rust panic is
`none`. -/

/-- `candid::types::Label`. -/
inductive Label where
  | Id : Nat → Label
  | Named : String → Label
  | Unnamed : Nat → Label
deriving DecidableEq, Repr

/-- `candid::types::TypeInner`, restricted to the shapes the mutator
destructures; `prim n` stands for every other variant, opaque. -/
inductive CandidType where
  | Vec : CandidType → CandidType
  | Opt : CandidType → CandidType
  | Record : List (Label × CandidType) → CandidType
  | Variant : List (Label × CandidType) → CandidType
  | Var : String → CandidType
  | prim : Nat → CandidType
deriving Repr

/-- `candid::TypeEnv`: named type bindings. -/
def TypeEnv := List (String × CandidType)

/-- `TypeEnv::find_type`. -/
def find_type (env : TypeEnv) (id : String) : Option CandidType :=
  (env.find? (fun p => decide (p.1 = id))).map (·.2)

/-- `TypeEnv::trace_type` with explicit fuel (the external library recurses
through `Var` bindings; well-typed environments resolve within `|env| + 1`
steps). -/
def trace_type_fuel : Nat → TypeEnv → CandidType → Option CandidType
  | 0, _, _ => none
  | fuel + 1, env, t =>
    match t with
    | .Var id =>
      match find_type env id with
      | none => none
      | some t1 => trace_type_fuel fuel env t1
    | _ => some t

/-- `env.trace_type(ty)`. -/
def trace_type (env : TypeEnv) (t : CandidType) : Option CandidType :=
  trace_type_fuel (env.length + 1) env t

/-- `candid::IDLValue`.  `Text`/`Number` carry UTF-8 bytes; sized integers
carry their bit pattern; floats carry their bit pattern. -/
inductive IDLValue where
  | Bool : Bool → IDLValue
  | Null : IDLValue
  | None : IDLValue
  | Reserved : IDLValue
  | Text : List Nat → IDLValue
  | Number : List Nat → IDLValue
  | Int : Int → IDLValue
  | Int8 : Nat → IDLValue
  | Int16 : Nat → IDLValue
  | Int32 : Nat → IDLValue
  | Int64 : Nat → IDLValue
  | Nat : Nat → IDLValue
  | Nat8 : Nat → IDLValue
  | Nat16 : Nat → IDLValue
  | Nat32 : Nat → IDLValue
  | Nat64 : Nat → IDLValue
  | Float32 : Nat → IDLValue
  | Float64 : Nat → IDLValue
  | Opt : IDLValue → IDLValue
  | Vec : List IDLValue → IDLValue
  | Record : List (Label × IDLValue) → IDLValue
  | Variant : Label → IDLValue → Nat → IDLValue
  | Principal : List Nat → IDLValue
  | Service : List Nat → IDLValue
  | Func : List Nat → String → IDLValue
  | Blob : List Nat → IDLValue
deriving Repr

/-- Rust `String::is_char_boundary` on the UTF-8 byte list: index 0 and the
length are boundaries; otherwise the byte there must not be a UTF-8
continuation byte. -/
def is_char_boundary (s : List Nat) (idx : Nat) : Bool :=
  if idx = 0 then true
  else
    match s.get? idx with
    | some b => decide (b < 128 ∨ 192 ≤ b)
    | none => decide (idx = s.length)

/-- Rust `String::pop`: removes the last character (its continuation bytes
and its leading byte) of a valid UTF-8 byte list. -/
def string_pop (s : List Nat) : List Nat :=
  ((s.reverse.dropWhile (fun b => decide (128 ≤ b ∧ b < 192))).drop 1).reverse

/-- A `w`-bit pattern as a signed value (two's complement). -/
def toSigned (w bits : Nat) : Int :=
  if bits < 2 ^ (w - 1) then (bits : Int) else (bits : Int) - 2 ^ w

section Mutator

variable {R : Type} (api : RandApi R)
-- `naughty_strings::BLNS`, the external naughty-string table (UTF-8 byte
-- lists):
variable (blns : List (List Nat))
-- the external float arithmetic of `mutate_float` (width, bit pattern,
-- generator state):
variable (mutateFloatExt : Nat → Nat → R → Nat × R)
-- the external schema-random generator `any` of the candid library
-- (seed, env, expected types), `none` for `Err`:
variable (genAny : Nat → TypeEnv → List CandidType → Option (List IDLValue))

/-- `mutate_text` from `candid_mutator.rs`.  The `none` results are the two
panics: `random_range` over the empty range `0..0` when `s` is empty in the
insert arm, and `String::insert_str` at a byte index that is not a char
boundary. -/
def mutate_text (s : List Nat) (rng : R) : Option (List Nat × R) :=
  let (choice, rng0) := api.randRange rng 10
  if choice < 5 then
    match randRangeChecked api rng0 s.length with
    | none => none
    | some (idx, rng1) =>
      match randRangeChecked api rng1 blns.length with
      | none => none
      | some (naughty_index, rng2) =>
        if is_char_boundary s idx then
          some (s.take idx ++ blns.getD naughty_index [] ++ s.drop idx, rng2)
        else none
  else if choice = 5 then
    if s.isEmpty then some (s, rng0) else some (string_pop s, rng0)
  else if choice = 6 then some ([], rng0)
  else if choice = 7 ∨ choice = 8 then
    if s.isEmpty then some (s, rng0)
    else
      let (idx, rng1) := api.randRange rng0 s.length
      match s.get? idx with
      | some b => some (s.set idx ((b + 1) % 256), rng1)
      | Option.none => none
  else some (s, rng0)

/-- `mutate_int` from `candid_mutator.rs` (arbitrary-precision `BigInt`). -/
def mutate_int (i : Int) (rng : R) : Int × R :=
  let (choice, rng0) := api.randRange rng 20
  if choice = 0 then (i + 1, rng0)
  else if choice = 1 then (i - 1, rng0)
  else if choice = 2 then (0, rng0)
  else if choice = 3 then (-(2 ^ 63), rng0)
  else if choice = 4 then (2 ^ 63 - 1, rng0)
  else if choice < 20 then
    let (bits, rng1) := api.randBits rng0 128
    let random : Int := toSigned 128 bits
    let (op, rng2) := api.randRange rng1 3
    if op = 0 then (random + i, rng2)
    else if op = 1 then (random - i, rng2)
    else if op = 2 then (random * i, rng2)
    else (i, rng2)
  else (i, rng0)

/-- `mutate_nat` from `candid_mutator.rs` (`BigUint`; the `random - val`
arm panics when subtraction underflows, modelled as `none`). -/
def mutate_nat (n : Nat) (rng : R) : Option (Nat × R) :=
  let (choice, rng0) := api.randRange rng 20
  if choice = 0 then some (n + 1, rng0)
  else if choice = 1 then
    if 0 < n then some (n - 1, rng0) else some (0, rng0)
  else if choice = 2 then some (2 ^ 64 - 1, rng0)
  else if choice = 3 then some (0, rng0)
  else if choice < 20 then
    let (random, rng1) := api.randBits rng0 128
    let (op, rng2) := api.randRange rng1 3
    if op = 0 then some (random + n, rng2)
    else if op = 1 then
      if n ≤ random then some (random - n, rng2) else none
    else if op = 2 then some (random * n, rng2)
    else some (n, rng2)
  else some (n, rng0)

/-- `mutate_primitive` from `candid_mutator.rs`, at bit-pattern level for
width `w` (wrapping add/sub/mul and xor coincide for signed and unsigned
representations). -/
def mutate_primitive (w : Nat) (val : Nat) (rng : R) : Nat × R :=
  let (random, rng0) := api.randBits rng w
  let (op, rng1) := api.randRange rng0 4
  if op = 0 then ((random + val) % 2 ^ w, rng1)
  else if op = 1 then ((2 ^ w + random - val) % 2 ^ w, rng1)
  else if op = 2 then ((random * val) % 2 ^ w, rng1)
  else if op = 3 then (Nat.xor random val, rng1)
  else (val, rng1)

/-- The element-wise `rng.random::<u8>()` loop of `mutate_principal`. -/
def rand_u8_list : Nat → R → List Nat × R
  | 0, rng => ([], rng)
  | n + 1, rng =>
    let (b, rng0) := api.randBits rng 8
    let (rest, rng1) := rand_u8_list n rng0
    (b :: rest, rng1)

/-- `mutate_principal` from `candid_mutator.rs`: byte 255 picks the
management canister (the empty principal), 254 the anonymous principal
(`[4]`), otherwise 1–29 random bytes whose last byte avoids the anonymous
tag 4. -/
def mutate_principal (p : List Nat) (rng : R) : List Nat × R :=
  let (b, rng0) := api.randBits rng 8
  if b = 255 then ([], rng0)
  else if b = 254 then ([4], rng0)
  else
    let (len0, rng1) := api.randRange rng0 29
    let length := len0 + 1
    let (result, rng2) := rand_u8_list api length rng1
    let result :=
      if result.getLast? = some 4 then result.dropLast ++ [255] else result
    (result, rng2)

/-- `mutate_blob` from `candid_mutator.rs`: `random_range(0..b.len())`
panics on an empty blob (`none`); otherwise the blob is resized and then
entirely refilled with random bytes. -/
def mutate_blob (b : List Nat) (rng : R) : Option (List Nat × R) :=
  match randRangeChecked api rng b.length with
  | none => none
  | some (new_size, rng0) =>
    let (bytes, rng1) := api.fillBytes rng0 new_size
    some (bytes, rng1)

mutual

/-- `mutate_value` from `candid_mutator.rs`.  `none` is a panic
(`mutate_text`/`mutate_blob` panics, `BigUint` underflow, out-of-range
`Vec` indexing, `unimplemented!` for `Service`/`Func`). -/
def mutate_value (val : IDLValue) (ty : CandidType) (env : TypeEnv)
    (rng : R) (depth : Nat) : Option (IDLValue × R) :=
  if depth > 20 then some (val, rng)
  else
    match val with
    | .Bool b => some (.Bool (!b), rng)
    | .Null => some (.Null, rng)
    | .None => some (.None, rng)
    | .Reserved => some (.Reserved, rng)
    | .Text s => (mutate_text api blns s rng).map (fun p => (.Text p.1, p.2))
    | .Number s =>
      (mutate_text api blns s rng).map (fun p => (.Number p.1, p.2))
    | .Int i =>
      let (i1, rng1) := mutate_int api i rng
      some (.Int i1, rng1)
    | .Int8 n =>
      let (n1, rng1) := mutate_primitive api 8 n rng
      some (.Int8 n1, rng1)
    | .Int16 n =>
      let (n1, rng1) := mutate_primitive api 16 n rng
      some (.Int16 n1, rng1)
    | .Int32 n =>
      let (n1, rng1) := mutate_primitive api 32 n rng
      some (.Int32 n1, rng1)
    | .Int64 n =>
      let (n1, rng1) := mutate_primitive api 64 n rng
      some (.Int64 n1, rng1)
    | .Nat n => (mutate_nat api n rng).map (fun p => (.Nat p.1, p.2))
    | .Nat8 n =>
      let (n1, rng1) := mutate_primitive api 8 n rng
      some (.Nat8 n1, rng1)
    | .Nat16 n =>
      let (n1, rng1) := mutate_primitive api 16 n rng
      some (.Nat16 n1, rng1)
    | .Nat32 n =>
      let (n1, rng1) := mutate_primitive api 32 n rng
      some (.Nat32 n1, rng1)
    | .Nat64 n =>
      let (n1, rng1) := mutate_primitive api 64 n rng
      some (.Nat64 n1, rng1)
    | .Float32 f =>
      let (f1, rng1) := mutateFloatExt 32 f rng
      some (.Float32 f1, rng1)
    | .Float64 f =>
      let (f1, rng1) := mutateFloatExt 64 f rng
      some (.Float64 f1, rng1)
    | .Vec v =>
      match trace_type env ty with
      | some (.Vec item_ty) =>
        (mutate_vec v item_ty env rng depth).map (fun p => (.Vec p.1, p.2))
      | _ => some (.Vec v, rng)
    | .Principal p =>
      let (p1, rng1) := mutate_principal api p rng
      some (.Principal p1, rng1)
    | .Blob items =>
      (mutate_blob api items rng).map (fun p => (.Blob p.1, p.2))
    | .Record fields =>
      match trace_type env ty with
      | some (.Record field_types) =>
        if fields.length = 0 then some (.Record fields, rng)
        else
          let (idx, rng1) := api.randRange rng fields.length
          match hget : fields.get? idx with
          | Option.none => none
          | some fld =>
            match field_types.find? (fun f => decide (f.1 = fld.1)) with
            | some fty =>
              match mutate_value fld.2 fty.2 env rng1 (depth + 1) with
              | Option.none => none
              | some (v1, rng2) =>
                some (.Record (fields.set idx (fld.1, v1)), rng2)
            | Option.none => some (.Record fields, rng1)
      | _ => some (.Record fields, rng)
    | .Variant id v tag =>
      match trace_type env ty with
      | some (.Variant variant_fields) =>
        if variant_fields.length ≠ 0 then
          let (flip, rng1) := api.randBool rng 1 5
          if flip then
            let (new_variant_idx, rng2) :=
              api.randRange rng1 variant_fields.length
            match variant_fields.get? new_variant_idx with
            | Option.none => none
            | some new_field =>
              let (bits, rng3) := api.randBits rng2 64
              let new_val :=
                match genAny bits env [new_field.2] with
                | some (a :: _) => a
                | some [] => IDLValue.Null
                | Option.none => IDLValue.Null
              some (.Variant new_field.1 new_val new_variant_idx, rng3)
          else
            match variant_fields.find? (fun f => decide (f.1 = id)) with
            | some fty =>
              match mutate_value v fty.2 env rng1 (depth + 1) with
              | Option.none => none
              | some (v1, rng2) => some (.Variant id v1 tag, rng2)
            | Option.none => some (.Variant id v tag, rng1)
        else
          match variant_fields.find? (fun f => decide (f.1 = id)) with
          | some fty =>
            match mutate_value v fty.2 env rng (depth + 1) with
            | Option.none => none
            | some (v1, rng1) => some (.Variant id v1 tag, rng1)
          | Option.none => some (.Variant id v tag, rng)
      | _ => some (.Variant id v tag, rng)
    | .Opt o =>
      match trace_type env ty with
      | some (.Opt inner_ty) =>
        match mutate_value o inner_ty env rng depth with
        | Option.none => none
        | some (o1, rng1) => some (.Opt o1, rng1)
      | _ => some (.Opt o, rng)
    | .Service _ => none
    | .Func _ _ => none
termination_by sizeOf val
decreasing_by
all_goals simp_wf
all_goals try omega
all_goals
  have hmem := List.sizeOf_lt_of_mem (List.get?_mem hget)
  try (rcases fld with ⟨fa, fb⟩; simp at hmem ⊢; omega)

/-- `mutate_vec` from `candid_mutator.rs`: empty vectors return
immediately; otherwise drop, duplicate-and-mutate, or mutate in place. -/
def mutate_vec (vec : List IDLValue) (item_ty : CandidType) (env : TypeEnv)
    (rng : R) (depth : Nat) : Option (List IDLValue × R) :=
  if vec.isEmpty then some (vec, rng)
  else
    let (choice, rng1) := api.randRange rng 3
    if choice = 0 then
      let (idx, rng2) := api.randRange rng1 vec.length
      if idx < vec.length then some (vec.eraseIdx idx, rng2) else none
    else if choice = 1 then
      let (idx, rng2) := api.randRange rng1 vec.length
      match hget : vec.get? idx with
      | Option.none => none
      | some v =>
        match mutate_value v item_ty env rng2 (depth + 1) with
        | Option.none => none
        | some (v1, rng3) => some (vec ++ [v1], rng3)
    else if choice = 2 then
      let (idx, rng2) := api.randRange rng1 vec.length
      match hget : vec.get? idx with
      | Option.none => none
      | some v =>
        match mutate_value v item_ty env rng2 (depth + 1) with
        | Option.none => none
        | some (v1, rng3) => some (vec.set idx v1, rng3)
    else some (vec, rng1)
termination_by sizeOf vec
decreasing_by
all_goals simp_wf
all_goals
  have hmem := List.sizeOf_lt_of_mem (List.get?_mem hget)
  omega

end

end Mutator

/-! ### A small-step semantics for the straight-line fragment of Wasm

Only the operators the injected helper body uses are given semantics; this
suffices to state and prove what the helper computes.  Values are `i32`
bit patterns (`Nat`, reduced `% 2 ^ 32` where the operation wraps); the
linear memory at index 0 is a byte map. -/

/-- An execution state: operand stack (head = top), function locals,
globals, and the bytes of linear memory 0. -/
structure ExecState where
  stack : List Nat
  locals : List Nat
  globals : Nat → Nat
  mem : Nat → Nat

/-- One operator of the straight-line fragment.  `none` on stack underflow,
out-of-range locals, or an unsupported operator. -/
def wasm_step : Operator → ExecState → Option ExecState
  | .I32Const c, ⟨stk, loc, g, mem⟩ =>
    some ⟨c % 2 ^ 32 :: stk, loc, g, mem⟩
  | .LocalGet i, ⟨stk, loc, g, mem⟩ =>
    match loc.get? i with
    | some v => some ⟨v :: stk, loc, g, mem⟩
    | none => none
  | .LocalTee i, ⟨stk, loc, g, mem⟩ =>
    match stk with
    | v :: _ =>
      if i < loc.length then some ⟨stk, loc.set i v, g, mem⟩ else none
    | [] => none
  | .GlobalGet i, ⟨stk, loc, g, mem⟩ => some ⟨g i :: stk, loc, g, mem⟩
  | .GlobalSet i, ⟨stk, loc, g, mem⟩ =>
    match stk with
    | v :: st =>
      some ⟨st, loc, fun j => if j = i then v else g j, mem⟩
    | [] => none
  | .I32Xor, ⟨stk, loc, g, mem⟩ =>
    match stk with
    | b :: a :: st => some ⟨(a ^^^ b) :: st, loc, g, mem⟩
    | _ => none
  | .I32Add, ⟨stk, loc, g, mem⟩ =>
    match stk with
    | b :: a :: st => some ⟨(a + b) % 2 ^ 32 :: st, loc, g, mem⟩
    | _ => none
  | .I32ShrU, ⟨stk, loc, g, mem⟩ =>
    match stk with
    | b :: a :: st => some ⟨a / 2 ^ (b % 32) :: st, loc, g, mem⟩
    | _ => none
  | .I32Load8U ma, ⟨stk, loc, g, mem⟩ =>
    match stk with
    | a :: st => some ⟨mem (a + ma.offset) :: st, loc, g, mem⟩
    | [] => none
  | .I32Store8 ma, ⟨stk, loc, g, mem⟩ =>
    match stk with
    | v :: a :: st =>
      some ⟨st, loc, g,
        fun x => if x = a + ma.offset then v % 256 else mem x⟩
    | _ => none
  | _, _ => none

/-- Runs a straight-line instruction sequence. -/
def wasm_run : List Operator → ExecState → Option ExecState
  | [], s => some s
  | op :: rest, s =>
    match wasm_step op s with
    | some s1 => wasm_run rest s1
    | none => none

/-! ### The spec's description of the per-function rewrite

`spec_instrument_body` restates §4.2 step 5 of the specification: one
`i32.const c; call helper` pair at function entry, one after each
control-opening operator, one immediately before each branch, everything
else copied unchanged in order.  It is compared against the accumulator
loop transcribed from `instrument_branches`. -/

section SpecSide

variable {R : Type} (api : RandApi R)

/-- One `i32.const c; call helper` pair, with `c` drawn from the seeded
stream. -/
def spec_pair (bound helper_idx : Nat) (rng : R) : List Operator × R :=
  let (c, rng1) := api.randRange rng bound
  ([.I32Const c, .Call helper_idx], rng1)

/-- The spec's per-instruction insertion: after each of `Block`, `Loop`,
`If`, `Else`; before each of `Br`, `BrIf`, `BrTable`, `Return`; all other
instructions copied through unchanged. -/
def spec_instrument_rest (bound helper_idx : Nat) :
    List Operator → R → List Operator × R
  | [], rng => ([], rng)
  | instr :: rest, rng =>
    if isControlOpener instr then
      let (p, rng1) := spec_pair api bound helper_idx rng
      let (tail, rng2) := spec_instrument_rest bound helper_idx rest rng1
      (instr :: (p ++ tail), rng2)
    else if isBranchOp instr then
      let (p, rng1) := spec_pair api bound helper_idx rng
      let (tail, rng2) := spec_instrument_rest bound helper_idx rest rng1
      (p ++ instr :: tail, rng2)
    else
      let (tail, rng1) := spec_instrument_rest bound helper_idx rest rng
      (instr :: tail, rng1)

/-- The spec's whole-body rewrite: the entry pair followed by the
per-instruction insertions. -/
def spec_instrument_body (bound helper_idx : Nat) (body : List Operator)
    (rng : R) : List Operator × R :=
  let (p, rng1) := spec_pair api bound helper_idx rng
  let (tail, rng2) := spec_instrument_rest api bound helper_idx body rng1
  (p ++ tail, rng2)

end SpecSide

/-! ### Concrete instances used by witnesses and counterexamples -/

/-- A concrete, fully computable generator model: the state is a counter,
`random_range(0..n)` returns `state % n` and advances the counter.  It
instantiates the abstract `rand` parameter in closed statements. -/
def nat_api : RandApi Nat where
  seedFrom := fun s => s
  randRange := fun st n => (st % n, st + 1)
  randBits := fun st w => (st % 2 ^ w, st + 1)
  randBool := fun st _ _ => (false, st + 1)
  fillBytes := fun st len => (List.replicate len 0, st + 1)

/-- The empty module `(module)`. -/
def empty_module : Module := ⟨[], [], []⟩

/-- A module with a single local function whose body is `return; end`
(scenario E3 of the specification). -/
def return_module : Module :=
  ⟨[.local_ ⟨[], [], [], [.Return, .End]⟩], [], []⟩

/-- A trivial parse function for closed instances: every byte string
parses to the empty module. -/
def parse0 : List Nat → Option Module := fun _ => some empty_module

/-- A trivial encode function for closed instances. -/
def encode0 : Module → List Nat := fun _ => []

/-- A trivial validator for closed instances. -/
def validate0 : List Nat → Bool := fun _ => true

/-- A concrete canister entry with role `Coverage`. -/
def coverage_canister_ex : CanisterInfo :=
  ⟨none, "target", .Path "./target.wasm", .Coverage, []⟩

/-- A concrete canister entry with role `Support`. -/
def support_canister_ex : CanisterInfo :=
  ⟨none, "helper", .Path "./helper.wasm", .Support, []⟩

/-- A one-entry naughty-string table for closed statements ("naughty"). -/
def blns_ex : List (List Nat) := [[110, 97, 117, 103, 104, 116, 121]]

/-- Trivial float mutation for closed statements. -/
def float_ext0 : Nat → Nat → Nat → Nat × Nat := fun _ f rng => (f, rng)

/-- Trivial schema-random generator for closed statements. -/
def gen_any0 : Nat → TypeEnv → List CandidType → Option (List IDLValue) :=
  fun _ _ _ => none

/-- The consecutive global indices `gbase, gbase+1, …` that
`inject_globals` assigns to the `prev_loc` globals. -/
def prev_ids (gbase : Nat) : Nat → List Nat
  | 0 => []
  | n + 1 => gbase :: prev_ids (gbase + 1) n

/-- The spec's edge key:
`(curr_loc ^ prev_loc[0] ^ … ^ prev_loc[h-1]) + mem_ptr`, as an `i32`. -/
def afl_key (hist gbase c : Nat) (g : Nat → Nat) : Nat :=
  ((prev_ids gbase hist).foldl (fun a gi => a ^^^ g gi) c + g (gbase + hist))
    % 2 ^ 32

/-- Function index `i` of `m` is an import of the given module/item name
(of some type). -/
def import_name_at (m : Module) (i : Nat) (mn n : String) : Prop :=
  ∃ ps rs, m.functions.get? i = some (.imported ⟨mn, n, ps, rs⟩)

/-! ## Theorems -/

/-- C6: the simulator call result is translated to an exit disposition
exactly as the spec's table states — a reply maps to `Ok`; a reject with a
canister-trap code to `Crash`; the four memory-related codes to `Oom`; the
instruction-limit code to `Timeout`; every other reject to `Ok`. -/
theorem claim_C6 (result : Except RejectResponse (List Nat)) :
    (parse_canister_result_for_trap result = .Crash ↔
      ∃ e, result = .error e ∧
        (e.error_code = .CanisterTrapped ∨
         e.error_code = .CanisterCalledTrap)) ∧
    (parse_canister_result_for_trap result = .Oom ↔
      ∃ e, result = .error e ∧
        (e.error_code = .CanisterMemoryAccessLimitExceeded ∨
         e.error_code = .InsufficientMemoryAllocation ∨
         e.error_code = .CanisterOutOfMemory ∨
         e.error_code = .CanisterWasmMemoryLimitExceeded)) ∧
    (parse_canister_result_for_trap result = .Timeout ↔
      ∃ e, result = .error e ∧
        e.error_code = .CanisterInstructionLimitExceeded) ∧
    (parse_canister_result_for_trap result = .Ok ↔
      ((∃ v, result = .ok v) ∨
       ∃ e n, result = .error e ∧ e.error_code = .otherCode n)) := by
  cases result with
  | ok v => simp [parse_canister_result_for_trap]
  | error e =>
    obtain ⟨code⟩ := e
    cases code <;> simp [parse_canister_result_for_trap]

/-- Index-aware mapping leaves the `ty` projection of a canister list
unchanged when the mapped function does. -/
theorem mapIdx_preserves_ty :
    ∀ (l : List CanisterInfo) (f : Nat → CanisterInfo → CanisterInfo),
      (∀ i c, (f i c).ty = c.ty) →
      (l.mapIdx f).map (·.ty) = l.map (·.ty)
  | [], _, _ => by simp
  | c :: l, f, hf => by
    simp [List.mapIdx_cons, hf,
      mapIdx_preserves_ty l (fun i => f (i + 1))
        (fun i c => hf (i + 1) c)]

/-- C9: every `FuzzerState` built through `FuzzerState::new` or
`FuzzerBuilder::build` has exactly one `Coverage` canister; construction
fails whenever the count differs from one; and the state-changing
operations (`init_state`, `setup_canisters`) never change any canister's
role. -/
theorem claim_C9 :
    (∀ (name : String) (canisters : List CanisterInfo) (s : FuzzerState),
        FuzzerState.new name canisters = some s →
        coverage_count s.canisters = 1 ∧ s.canisters = canisters) ∧
    (∀ (name : String) (canisters : List CanisterInfo),
        coverage_count canisters ≠ 1 →
        FuzzerState.new name canisters = none) ∧
    (∀ (b : FuzzerBuilder) (s : FuzzerState),
        FuzzerBuilder.build b = some s → coverage_count s.canisters = 1) ∧
    (∀ s : FuzzerState,
        (FuzzerState.init_state s).canisters.map (·.ty) =
          s.canisters.map (·.ty)) ∧
    (∀ (assigned : Nat → Nat) (s : FuzzerState),
        (FuzzerState.setup_canisters assigned s).canisters.map (·.ty) =
          s.canisters.map (·.ty)) := by
  refine ⟨?_, ?_, ?_, ?_, ?_⟩
  · intro name cs s h
    by_cases hc : coverage_count cs = 1
    · rw [FuzzerState.new, if_pos hc] at h
      injection h with h
      subst h
      exact ⟨hc, rfl⟩
    · rw [FuzzerState.new, if_neg hc] at h
      exact absurd h (by simp)
  · intro name cs hne
    rw [FuzzerState.new, if_neg hne]
  · intro b s h
    by_cases hc : coverage_count b.canisters = 1
    · rw [FuzzerBuilder.build, FuzzerState.new, if_pos hc] at h
      injection h with h
      subst h
      exact hc
    · rw [FuzzerBuilder.build, FuzzerState.new, if_neg hc] at h
      exact absurd h (by simp)
  · intro s
    rfl
  · intro assigned s
    have h1 : (if s.state.isNone then s.init_state else s).canisters =
        s.canisters := by
      split <;> rfl
    simp only [FuzzerState.setup_canisters]
    rw [mapIdx_preserves_ty _
      (fun i c => { c with id := some (assigned i) }) (fun i c => rfl), h1]

/-- Witness for C9 at a one-canister list with role `Coverage`. -/
theorem claim_C9_witness :
    coverage_count
        (FuzzerState.mk "fuzz" none [coverage_canister_ex]).canisters = 1 ∧
    (FuzzerState.mk "fuzz" none [coverage_canister_ex]).canisters =
      [coverage_canister_ex] :=
  claim_C9.1 "fuzz" [coverage_canister_ex]
    ⟨"fuzz", none, [coverage_canister_ex]⟩ rfl

/-- C1: whatever `instrument_wasm_for_fuzzing` returns has passed the
standard Wasm validator — the function validates its re-encoded output and
only returns validated bytes (every failure path panics instead of
returning). -/
theorem claim_C1 {R : Type} (api : RandApi R)
    (parseModule : List Nat → Option Module)
    (encodeModule : Module → List Nat)
    (validate_wasm : List Nat → Bool)
    (args : InstrumentationArgs) (entropy : Nat) (out : List Nat)
    (h : instrument_wasm_for_fuzzing api parseModule encodeModule
        validate_wasm args entropy = some out) :
    validate_wasm out = true := by
  simp only [instrument_wasm_for_fuzzing] at h
  split at h
  · split at h
    · exact absurd h (by simp)
    · split at h
      next hv => cases h; exact hv
      next hv => exact absurd h (by simp)
  · exact absurd h (by simp)

/-- Witness for C1: a concrete run returning validated bytes. -/
theorem claim_C1_witness : validate0 [] = true :=
  claim_C1 nat_api parse0 encode0 validate0 ⟨[], 1, .Static 0⟩ 0 [] rfl

/-- C10: for every declared element type, type environment, recursion
depth, and generator state, mutating an empty `Vec` is a no-op —
`mutate_vec` returns immediately (generator state untouched), and
`mutate_value` leaves the empty `Vec` value unchanged. -/
theorem claim_C10 {R : Type} (api : RandApi R) (blns : List (List Nat))
    (mutateFloatExt : Nat → Nat → R → Nat × R)
    (genAny : Nat → TypeEnv → List CandidType → Option (List IDLValue))
    (item_ty : CandidType) (env : TypeEnv) (rng : R) (depth : Nat) :
    mutate_vec api blns mutateFloatExt genAny [] item_ty env rng depth =
      some ([], rng) ∧
    (∀ ty : CandidType,
      mutate_value api blns mutateFloatExt genAny (.Vec []) ty env rng
        depth = some (.Vec [], rng)) := by
  constructor
  · simp [mutate_vec]
  · intro ty
    rw [mutate_value]
    split
    · rfl
    · split <;> simp [mutate_vec]

/-- C2: the spec requires the mutator never to panic, but the code does.
`mutate_text` panics on an empty string (`random_range` over the empty
range `0..0` in the insert arm) and when the random insertion index falls
inside a multi-byte UTF-8 character (`String::insert_str` off a char
boundary, here inside `"é" = [0xC3, 0xA9]`); `mutate_blob` panics on an
empty blob.  Each panic is the `none` result below, evaluated at the
failing inputs, and is reachable from `mutate_value`. -/
theorem claim_C2 :
    mutate_text nat_api blns_ex [] 0 = none ∧
    mutate_text nat_api blns_ex [195, 169] 0 = none ∧
    mutate_blob nat_api [] 0 = none ∧
    mutate_value nat_api blns_ex float_ext0 gen_any0 (.Text []) (.prim 0)
      [] 0 0 = none ∧
    mutate_value nat_api blns_ex float_ext0 gen_any0 (.Blob []) (.prim 0)
      [] 0 0 = none := by
  refine ⟨rfl, rfl, rfl, ?_, ?_⟩
  · rw [mutate_value]; rfl
  · rw [mutate_value]; rfl

/-- The accumulator loop of `instrument_branches` computes exactly the
spec's insertion: the accumulator followed by the spec rewrite of the
remaining instructions. -/
theorem instrument_ops_eq_spec {R : Type} (api : RandApi R)
    (bound hidx : Nat) :
    ∀ (body acc : List Operator) (rng : R),
      instrument_ops api bound hidx body acc rng =
        (acc ++ (spec_instrument_rest api bound hidx body rng).1,
          (spec_instrument_rest api bound hidx body rng).2)
  | [], acc, rng => by
    simp [instrument_ops, spec_instrument_rest]
  | instr :: rest, acc, rng => by
    rcases hr : api.randRange rng bound with ⟨c, rng1⟩
    by_cases ho : isControlOpener instr = true
    · simp [instrument_ops, spec_instrument_rest, ho, spec_pair,
        create_instrumentation_ops, hr,
        instrument_ops_eq_spec api bound hidx rest]
    · by_cases hb : isBranchOp instr = true
      · simp [instrument_ops, spec_instrument_rest, ho, hb, spec_pair,
          create_instrumentation_ops, hr,
          instrument_ops_eq_spec api bound hidx rest]
      · simp [instrument_ops, spec_instrument_rest, ho, hb,
          instrument_ops_eq_spec api bound hidx rest]

/-- The function loop of `instrument_branches`, at a position holding a
local function whose running index differs from the helper's: the output
there is the function with the spec rewrite of its body (for the generator
state threaded up to it). -/
theorem instrument_function_list_get {R : Type} (api : RandApi R)
    (bound hidx : Nat) :
    ∀ (fs : List Func) (idx : Nat) (rng : R) (i : Nat) (lf : LocalFunc),
      fs.get? i = some (.local_ lf) → idx + i ≠ hidx →
      ∃ rng0,
        ((instrument_function_list api bound hidx fs idx rng).1).get? i =
          some (.local_ { lf with body :=
            (spec_instrument_body api bound hidx lf.body rng0).1 })
  | [], _, _, i, _ => by simp
  | f :: rest, idx, rng, 0, lf => by
    intro hf hne
    simp only [List.get?] at hf
    cases hf
    have hne0 : idx ≠ hidx := by omega
    refine ⟨rng, ?_⟩
    rcases hr : api.randRange rng bound with ⟨c, rng1⟩
    simp [instrument_function_list, hne0, spec_instrument_body,
      create_instrumentation_ops, spec_pair, hr,
      instrument_ops_eq_spec api bound hidx]
  | f :: rest, idx, rng, i + 1, lf => by
    intro hf hne
    simp only [List.get?] at hf
    have hne1 : (idx + 1) + i ≠ hidx := by omega
    cases f with
    | imported im =>
      obtain ⟨rng0, hres⟩ :=
        instrument_function_list_get api bound hidx rest (idx + 1)
          rng i lf hf hne1
      refine ⟨rng0, ?_⟩
      rw [List.get?_eq_getElem?] at hres
      simp [instrument_function_list, hres]
    | local_ g =>
      by_cases hidx0 : idx = hidx
      · subst hidx0
        obtain ⟨rng0, hres⟩ :=
          instrument_function_list_get api bound idx rest (idx + 1)
            rng i lf hf hne1
        refine ⟨rng0, ?_⟩
        rw [List.get?_eq_getElem?] at hres
        simp [instrument_function_list, hres]
      · rcases hc : create_instrumentation_ops api bound hidx [] rng with
          ⟨entry, rng1⟩
        rcases hio : instrument_ops api bound hidx g.body entry rng1 with
          ⟨body1, rng2⟩
        obtain ⟨rng0, hres⟩ :=
          instrument_function_list_get api bound hidx rest (idx + 1)
            rng2 i lf hf hne1
        refine ⟨rng0, ?_⟩
        rw [List.get?_eq_getElem?] at hres
        simp [instrument_function_list, hidx0, hc, hio, hres]

/-- C3: for every local function of the input module (the injected helper
is appended after them, so every original index differs from it), the
instrumented body is exactly the spec's insertion — the entry pair, a pair
after each `Block`/`Loop`/`If`/`Else`, a pair before each
`Br`/`BrIf`/`BrTable`/`Return`, and all other instructions copied through
unmodified in their original order. -/
theorem claim_C3 {R : Type} (api : RandApi R) (m : Module)
    (prevs : List Nat) (memPtr : Nat) (seed : Seed) (entropy : Nat)
    (i : Nat) (lf : LocalFunc)
    (hf : m.functions.get? i = some (.local_ lf)) :
    ∃ rng0,
      ((instrument_branches api m prevs memPtr seed entropy).functions.get?
          i) =
        some (.local_ { lf with body :=
          (spec_instrument_body api
            (AFL_COVERAGE_MAP_SIZE * prevs.length)
            m.functions.length lf.body rng0).1 }) := by
  have hlt : i < m.functions.length := by
    by_contra hge
    have hnone : m.functions.get? i = none :=
      List.get?_eq_none.mpr (by omega)
    rw [hnone] at hf
    cases hf
  have hf1 : (m.functions ++
      [Func.local_ ⟨[.i32], [], [.i32], helper_body prevs memPtr⟩]).get? i =
      some (Func.local_ lf) := by
    rw [List.get?_append hlt]; exact hf
  obtain ⟨rng0, hres⟩ :=
    instrument_function_list_get api (AFL_COVERAGE_MAP_SIZE * prevs.length)
      m.functions.length
      (m.functions ++
        [Func.local_ ⟨[.i32], [], [.i32], helper_body prevs memPtr⟩])
      0 (api.seedFrom (match seed with | .Random => entropy | .Static s => s))
      i lf hf1 (by omega)
  exact ⟨rng0, hres⟩

/-- Witness for C3 at scenario E3's one-function module. -/
theorem claim_C3_witness :
    ∃ rng0,
      ((instrument_branches nat_api return_module [0, 1] 2 (.Static 42)
          0).functions.get? 0) =
        some (.local_ { (⟨[], [], [], [.Return, .End]⟩ : LocalFunc) with
          body :=
            (spec_instrument_body nat_api (AFL_COVERAGE_MAP_SIZE * 2)
              1 [.Return, .End] rng0).1 }) :=
  claim_C3 nat_api return_module [0, 1] 2 (.Static 42) 0 0
    ⟨[], [], [], [.Return, .End]⟩ rfl

/-- C7: under a static seed the rewrite is a deterministic function of the
module, history size and seed — the OS-entropy input consumed only by
`Seed::Random` never influences the output — and every constant the
instrumentation loop injects is drawn from
`[0, AFL_COVERAGE_MAP_SIZE * history_size)`: each emitted operator is an
original instruction, an accumulator entry, a call to the helper, or an
`i32.const c` with `c` in range. -/
theorem claim_C7 {R : Type} (api : RandApi R)
    (parseModule : List Nat → Option Module)
    (encodeModule : Module → List Nat)
    (validate_wasm : List Nat → Bool)
    (wasm_bytes : List Nat) (hist s entropy1 entropy2 : Nat)
    (hrange : ∀ (st : R) (n : Nat), 0 < n → (api.randRange st n).1 < n)
    (hh : hist = 1 ∨ hist = 2 ∨ hist = 4 ∨ hist = 8) :
    (instrument_wasm_for_fuzzing api parseModule encodeModule validate_wasm
        ⟨wasm_bytes, hist, .Static s⟩ entropy1 =
      instrument_wasm_for_fuzzing api parseModule encodeModule validate_wasm
        ⟨wasm_bytes, hist, .Static s⟩ entropy2) ∧
    (∀ (hidx : Nat) (body acc : List Operator) (rng : R) (op : Operator),
      op ∈ (instrument_ops api (AFL_COVERAGE_MAP_SIZE * hist) hidx body acc
          rng).1 →
      op ∈ body ∨ op ∈ acc ∨ op = .Call hidx ∨
        ∃ c, c < AFL_COVERAGE_MAP_SIZE * hist ∧ op = .I32Const c) := by
  have hbound : 0 < AFL_COVERAGE_MAP_SIZE * hist := by
    rcases hh with rfl | rfl | rfl | rfl <;> decide
  constructor
  · rfl
  · intro hidx body
    induction body with
    | nil =>
      intro acc rng op hop
      rw [instrument_ops] at hop
      exact Or.inr (Or.inl hop)
    | cons instr rest ih =>
      intro acc rng op hop
      rcases hr : api.randRange rng (AFL_COVERAGE_MAP_SIZE * hist) with
        ⟨c, rng1⟩
      have hc : c < AFL_COVERAGE_MAP_SIZE * hist := by
        have hlt := hrange rng (AFL_COVERAGE_MAP_SIZE * hist) hbound
        rw [hr] at hlt
        exact hlt
      rw [instrument_ops] at hop
      by_cases ho : isControlOpener instr = true
      · rw [if_pos ho] at hop
        simp only [create_instrumentation_ops, hr] at hop
        rcases ih _ _ op hop with h | h | h | h
        · exact Or.inl (List.mem_cons_of_mem _ h)
        · simp only [List.mem_append, List.mem_cons, List.not_mem_nil,
            or_false] at h
          rcases h with (h | rfl) | (rfl | rfl)
          · exact Or.inr (Or.inl h)
          · exact Or.inl (List.mem_cons_self _ _)
          · exact Or.inr (Or.inr (Or.inr ⟨c, hc, rfl⟩))
          · exact Or.inr (Or.inr (Or.inl rfl))
        · exact Or.inr (Or.inr (Or.inl h))
        · exact Or.inr (Or.inr (Or.inr h))
      · rw [if_neg ho] at hop
        by_cases hb : isBranchOp instr = true
        · rw [if_pos hb] at hop
          simp only [create_instrumentation_ops, hr] at hop
          rcases ih _ _ op hop with h | h | h | h
          · exact Or.inl (List.mem_cons_of_mem _ h)
          · simp only [List.mem_append, List.mem_cons, List.not_mem_nil,
              or_false] at h
            rcases h with (h | (rfl | rfl)) | rfl
            · exact Or.inr (Or.inl h)
            · exact Or.inr (Or.inr (Or.inr ⟨c, hc, rfl⟩))
            · exact Or.inr (Or.inr (Or.inl rfl))
            · exact Or.inl (List.mem_cons_self _ _)
          · exact Or.inr (Or.inr (Or.inl h))
          · exact Or.inr (Or.inr (Or.inr h))
        · rw [if_neg hb] at hop
          rcases ih _ _ op hop with h | h | h | h
          · exact Or.inl (List.mem_cons_of_mem _ h)
          · simp only [List.mem_append, List.mem_cons, List.not_mem_nil,
              or_false] at h
            rcases h with h | rfl
            · exact Or.inr (Or.inl h)
            · exact Or.inl (List.mem_cons_self _ _)
          · exact Or.inr (Or.inr (Or.inl h))
          · exact Or.inr (Or.inr (Or.inr h))

/-- Witness for C7: determinism across two entropy values and the range
property at a one-instruction body, with the concrete generator model. -/
theorem claim_C7_witness :
    (instrument_wasm_for_fuzzing nat_api parse0 encode0 validate0
        ⟨[], 2, .Static 42⟩ 7 =
      instrument_wasm_for_fuzzing nat_api parse0 encode0 validate0
        ⟨[], 2, .Static 42⟩ 99) ∧
    (Operator.Return ∈ [Operator.Return] ∨
      Operator.Return ∈ ([] : List Operator) ∨
      Operator.Return = .Call 5 ∨
      ∃ c, c < AFL_COVERAGE_MAP_SIZE * 2 ∧ Operator.Return = .I32Const c) :=
  have hmain := claim_C7 nat_api parse0 encode0 validate0 [] 2 42 7 99
    (fun st n hn => Nat.mod_lt st hn) (Or.inr (Or.inl rfl))
  ⟨hmain.1, hmain.2 5 [.Return] [] 42 .Return (by decide)⟩

/-- A successful import lookup names an import with the searched names at
the returned function index (relative to the running offset). -/
theorem get_import_func_aux_spec :
    ∀ (fs : List Func) (k : Nat) (mn n : String) (i : Nat),
      get_import_func_aux fs k mn n = some i →
      ∃ j ps rs, i = k + j ∧ fs.get? j = some (.imported ⟨mn, n, ps, rs⟩)
  | [], k, mn, n, i => by simp [get_import_func_aux]
  | f :: rest, k, mn, n, i => by
    intro h
    cases f with
    | imported im =>
      rw [get_import_func_aux] at h
      by_cases hm : im.moduleName = mn ∧ im.name = n
      · rw [if_pos hm] at h
        cases h
        refine ⟨0, im.params, im.results, by omega, ?_⟩
        rcases im with ⟨a, b, ps, rs⟩
        obtain ⟨rfl, rfl⟩ := hm
        rfl
      · rw [if_neg hm] at h
        obtain ⟨j, ps, rs, rfl, hj⟩ :=
          get_import_func_aux_spec rest (k + 1) mn n i h
        exact ⟨j + 1, ps, rs, by omega, by simpa using hj⟩
    | local_ g =>
      rw [get_import_func_aux] at h
      obtain ⟨j, ps, rs, rfl, hj⟩ :=
        get_import_func_aux_spec rest (k + 1) mn n i h
      exact ⟨j + 1, ps, rs, by omega, by simpa using hj⟩

/-- A successful `get_import_func` names an import at the returned
index. -/
theorem get_import_func_spec (m : Module) (mn n : String) (i : Nat)
    (h : get_import_func m mn n = some i) :
    ∃ ps rs, m.functions.get? i = some (.imported ⟨mn, n, ps, rs⟩) := by
  obtain ⟨j, ps, rs, hi, hj⟩ :=
    get_import_func_aux_spec m.functions 0 mn n i h
  refine ⟨ps, rs, ?_⟩
  have hij : i = j := by omega
  rw [hij]
  exact hj

/-- An index holding `some` entry in a list keeps it after appending. -/
theorem get?_append_of_some {α : Type} (l l2 : List α) (i : Nat) (a : α)
    (h : l.get? i = some a) : (l ++ l2).get? i = some a := by
  have hlt : i < l.length := by
    by_contra hge
    rw [List.get?_eq_none.mpr (by omega)] at h
    cases h
  rw [List.get?_append hlt]
  exact h

/-- `ensure_ic0_imports` appends at most the two required imports, leaves
exports and globals alone, and returns indices naming
`ic0.msg_reply_data_append` and `ic0.msg_reply`. -/
theorem ensure_ic0_imports_spec (m : Module) :
    ∃ extra : List Func,
      (ensure_ic0_imports m).2.functions = m.functions ++ extra ∧
      (ensure_ic0_imports m).2.exports = m.exports ∧
      (ensure_ic0_imports m).2.globals = m.globals ∧
      import_name_at (ensure_ic0_imports m).2 (ensure_ic0_imports m).1.1
        API_VERSION_IC0 "msg_reply_data_append" ∧
      import_name_at (ensure_ic0_imports m).2 (ensure_ic0_imports m).1.2
        API_VERSION_IC0 "msg_reply" := by
  cases h1 : get_import_func m API_VERSION_IC0 "msg_reply_data_append" with
  | some i1 =>
    obtain ⟨ps1, rs1, hi1⟩ := get_import_func_spec m _ _ i1 h1
    cases h2 : get_import_func m API_VERSION_IC0 "msg_reply" with
    | some i2 =>
      obtain ⟨ps2, rs2, hi2⟩ := get_import_func_spec m _ _ i2 h2
      have hE : ensure_ic0_imports m = ((i1, i2), m) := by
        rw [ensure_ic0_imports, h1]
        dsimp only [add_import_func]
        rw [show get_import_func m API_VERSION_IC0 "msg_reply" = some i2
          from h2]
      rw [hE]
      exact ⟨[], by simp, rfl, rfl, ⟨ps1, rs1, hi1⟩, ⟨ps2, rs2, hi2⟩⟩
    | none =>
      have hE : ensure_ic0_imports m =
          ((i1, m.functions.length),
           { m with functions := m.functions ++
              [.imported ⟨API_VERSION_IC0, "msg_reply", [], []⟩] }) := by
        rw [ensure_ic0_imports, h1]
        dsimp only [add_import_func]
        rw [show get_import_func m API_VERSION_IC0 "msg_reply" = none
          from h2]
      rw [hE]
      refine ⟨[.imported ⟨API_VERSION_IC0, "msg_reply", [], []⟩],
        rfl, rfl, rfl,
        ⟨ps1, rs1, get?_append_of_some _ _ _ _ hi1⟩, ⟨[], [], ?_⟩⟩
      simpa using List.get?_concat_length m.functions
        (.imported ⟨API_VERSION_IC0, "msg_reply", [], []⟩)
  | none =>
    cases h2 : get_import_func
        { m with functions := m.functions ++
            [.imported ⟨API_VERSION_IC0, "msg_reply_data_append",
              [.i32, .i32], []⟩] }
        API_VERSION_IC0 "msg_reply" with
    | some i2 =>
      obtain ⟨ps2, rs2, hi2⟩ := get_import_func_spec _ _ _ i2 h2
      have hE : ensure_ic0_imports m =
          ((m.functions.length, i2),
           { m with functions := m.functions ++
              [.imported ⟨API_VERSION_IC0, "msg_reply_data_append",
                [.i32, .i32], []⟩] }) := by
        rw [ensure_ic0_imports, h1]
        dsimp only [add_import_func]
        rw [show get_import_func
            { m with functions := m.functions ++
                [.imported ⟨API_VERSION_IC0, "msg_reply_data_append",
                  [.i32, .i32], []⟩] }
            API_VERSION_IC0 "msg_reply" = some i2 from h2]
      rw [hE]
      refine ⟨[.imported ⟨API_VERSION_IC0, "msg_reply_data_append",
          [.i32, .i32], []⟩], rfl, rfl, rfl,
        ⟨[.i32, .i32], [], ?_⟩, ⟨ps2, rs2, hi2⟩⟩
      simpa using List.get?_concat_length m.functions
        (.imported ⟨API_VERSION_IC0, "msg_reply_data_append",
          [.i32, .i32], []⟩)
    | none =>
      have hE : ensure_ic0_imports m =
          ((m.functions.length,
            (m.functions ++ [Func.imported ⟨API_VERSION_IC0,
              "msg_reply_data_append", [.i32, .i32], []⟩]).length),
           { m with functions := (m.functions ++
              [.imported ⟨API_VERSION_IC0, "msg_reply_data_append",
                [.i32, .i32], []⟩]) ++
              [.imported ⟨API_VERSION_IC0, "msg_reply", [], []⟩] }) := by
        rw [ensure_ic0_imports, h1]
        dsimp only [add_import_func]
        rw [show get_import_func
            { m with functions := m.functions ++
                [.imported ⟨API_VERSION_IC0, "msg_reply_data_append",
                  [.i32, .i32], []⟩] }
            API_VERSION_IC0 "msg_reply" = none from h2]
      rw [hE]
      refine ⟨[.imported ⟨API_VERSION_IC0, "msg_reply_data_append",
          [.i32, .i32], []⟩,
        .imported ⟨API_VERSION_IC0, "msg_reply", [], []⟩],
        by simp, rfl, rfl, ⟨[.i32, .i32], [], ?_⟩, ⟨[], [], ?_⟩⟩
      · refine get?_append_of_some _ _ _ _ ?_
        simpa using List.get?_concat_length m.functions
          (.imported ⟨API_VERSION_IC0, "msg_reply_data_append",
            [.i32, .i32], []⟩)
      · exact List.get?_concat_length
          (m.functions ++ [.imported ⟨API_VERSION_IC0,
            "msg_reply_data_append", [.i32, .i32], []⟩])
          (.imported ⟨API_VERSION_IC0, "msg_reply", [], []⟩)

/-- `inject_prev_loc_globals` touches only the globals section. -/
theorem inject_prev_loc_globals_effects :
    ∀ (n : Nat) (m : Module),
      (inject_prev_loc_globals n m).2.functions = m.functions ∧
      (inject_prev_loc_globals n m).2.exports = m.exports
  | 0, m => ⟨rfl, rfl⟩
  | n + 1, m => inject_prev_loc_globals_effects n _

/-- `instrument_branches` touches only the function list. -/
theorem instrument_branches_exports {R : Type} (api : RandApi R)
    (m : Module) (prevs : List Nat) (memPtr : Nat) (seed : Seed)
    (entropy : Nat) :
    (instrument_branches api m prevs memPtr seed entropy).exports =
      m.exports := rfl

/-- C5: `inject_afl_coverage_export` appends exactly one export, named
`canister_update __export_coverage_for_afl`, pointing at a new local
function of type `() → ()` whose body calls
`msg_reply_data_append(mem_ptr, AFL_COVERAGE_MAP_SIZE * history_size)`,
then `msg_reply()`, then runs `memory.fill(mem_ptr, 0, …)` on memory 0;
the full rewrite adds no other export, and `AFL_COVERAGE_MAP_SIZE` is
65536. -/
theorem claim_C5 {R : Type} (api : RandApi R) (m : Module)
    (hist memPtr : Nat) (seed : Seed) (entropy : Nat) :
    ∃ covIdx da r,
      (inject_afl_coverage_export m hist memPtr).exports =
        m.exports ++ [⟨coverage_export_name, covIdx⟩] ∧
      (inject_afl_coverage_export m hist memPtr).functions.get? covIdx =
        some (.local_ ⟨[], [], [],
          [.GlobalGet memPtr, .I32Const (AFL_COVERAGE_MAP_SIZE * hist),
           .Call da, .Call r, .GlobalGet memPtr, .I32Const 0,
           .I32Const (AFL_COVERAGE_MAP_SIZE * hist), .MemoryFill 0]⟩) ∧
      import_name_at (inject_afl_coverage_export m hist memPtr) da
        API_VERSION_IC0 "msg_reply_data_append" ∧
      import_name_at (inject_afl_coverage_export m hist memPtr) r
        API_VERSION_IC0 "msg_reply" ∧
      (∃ covIdx2 : Nat,
        (instrument_for_afl api m hist seed entropy).exports =
          m.exports ++ [⟨coverage_export_name, covIdx2⟩]) ∧
      coverage_export_name =
        "canister_update __export_coverage_for_afl" ∧
      AFL_COVERAGE_MAP_SIZE = 65536 := by
  obtain ⟨extra, hfns, hexp, hglob, hda, hr⟩ := ensure_ic0_imports_spec m
  refine ⟨(ensure_ic0_imports m).2.functions.length,
    (ensure_ic0_imports m).1.1, (ensure_ic0_imports m).1.2,
    ?_, ?_, ?_, ?_, ?_, rfl, rfl⟩
  · show (ensure_ic0_imports m).2.exports ++ _ = m.exports ++ _
    rw [hexp]
    rfl
  · show ((ensure_ic0_imports m).2.functions ++
      [Func.local_ ⟨[], [], [],
        coverage_body memPtr hist (ensure_ic0_imports m).1.1
          (ensure_ic0_imports m).1.2⟩]).get?
      (ensure_ic0_imports m).2.functions.length = _
    exact List.get?_concat_length _ _
  · obtain ⟨ps, rs, h⟩ := hda
    exact ⟨ps, rs, get?_append_of_some _ _ _ _ h⟩
  · obtain ⟨ps, rs, h⟩ := hr
    exact ⟨ps, rs, get?_append_of_some _ _ _ _ h⟩
  · obtain ⟨extra2, hfns2, hexp2, hglob2, hda2, hr2⟩ :=
      ensure_ic0_imports_spec (inject_globals m hist).2
    refine ⟨(ensure_ic0_imports
      (inject_globals m hist).2).2.functions.length, ?_⟩
    have hx : (instrument_for_afl api m hist seed entropy).exports =
        (inject_afl_coverage_export (inject_globals m hist).2 hist
          (inject_globals m hist).1.2).exports := rfl
    rw [hx]
    show (ensure_ic0_imports (inject_globals m hist).2).2.exports ++ _ =
      m.exports ++ _
    rw [hexp2]
    have hexp3 : (inject_globals m hist).2.exports = m.exports :=
      (inject_prev_loc_globals_effects hist m).2
    rw [hexp3]
    rfl

/-- The function loop of `instrument_branches` leaves the entry at the
helper's own index untouched. -/
theorem instrument_function_list_get_helper {R : Type} (api : RandApi R)
    (bound hidx : Nat) :
    ∀ (fs : List Func) (idx : Nat) (rng : R) (j : Nat),
      idx + j = hidx →
      ((instrument_function_list api bound hidx fs idx rng).1).get? j =
        fs.get? j
  | [], idx, rng, j => by simp [instrument_function_list]
  | f :: rest, idx, rng, 0 => by
    intro hj
    have hidx0 : idx = hidx := by omega
    cases f with
    | imported im => rfl
    | local_ g =>
      have : ¬ idx ≠ hidx := by omega
      simp only [instrument_function_list, this, if_neg, ite_false,
        reduceCtorEq]
      rfl
  | f :: rest, idx, rng, j + 1 => by
    intro hj
    have hj1 : (idx + 1) + j = hidx := by omega
    cases f with
    | imported im =>
      have hres := instrument_function_list_get_helper api bound hidx rest
        (idx + 1) rng j hj1
      rw [List.get?_eq_getElem?] at hres
      simp [instrument_function_list, hres]
    | local_ g =>
      by_cases hidx0 : idx = hidx
      · omega
      · rcases hc : create_instrumentation_ops api bound hidx [] rng with
          ⟨entry, rng1⟩
        rcases hio : instrument_ops api bound hidx g.body entry rng1 with
          ⟨body1, rng2⟩
        have hres := instrument_function_list_get_helper api bound hidx rest
          (idx + 1) rng2 j hj1
        rw [List.get?_eq_getElem?] at hres
        simp [instrument_function_list, hidx0, hc, hio, hres]

/-- C8 (amended): the coverage-export entry function is appended *before*
the instrumentation helper, so the helper's function index is exactly one
above the coverage function's (in particular higher, not lower), and the
helper exists at its index in the output before any call to it is
emitted. -/
theorem claim_C8 {R : Type} (api : RandApi R) (m : Module) (hist : Nat)
    (seed : Seed) (entropy : Nat) :
    ∃ covIdx helperIdx prevs memPtrIdx,
      helperIdx = covIdx + 1 ∧ covIdx < helperIdx ∧
      (instrument_for_afl api m hist seed entropy).exports =
        m.exports ++ [⟨coverage_export_name, covIdx⟩] ∧
      (instrument_for_afl api m hist seed entropy).functions.get?
          helperIdx =
        some (.local_ ⟨[.i32], [], [.i32], helper_body prevs memPtrIdx⟩) := by
  obtain ⟨extra2, hfns2, hexp2, hglob2, hda2, hr2⟩ :=
    ensure_ic0_imports_spec (inject_globals m hist).2
  refine ⟨(ensure_ic0_imports (inject_globals m hist).2).2.functions.length,
    (ensure_ic0_imports (inject_globals m hist).2).2.functions.length + 1,
    (inject_globals m hist).1.1, (inject_globals m hist).1.2,
    rfl, by omega, ?_, ?_⟩
  · have hx : (instrument_for_afl api m hist seed entropy).exports =
        (inject_afl_coverage_export (inject_globals m hist).2 hist
          (inject_globals m hist).1.2).exports := rfl
    rw [hx]
    show (ensure_ic0_imports (inject_globals m hist).2).2.exports ++ _ =
      m.exports ++ _
    rw [hexp2]
    have hexp3 : (inject_globals m hist).2.exports = m.exports :=
      (inject_prev_loc_globals_effects hist m).2
    rw [hexp3]
    rfl
  · have hlen : (inject_afl_coverage_export (inject_globals m hist).2 hist
        (inject_globals m hist).1.2).functions.length =
        (ensure_ic0_imports
          (inject_globals m hist).2).2.functions.length + 1 := by
      show ((ensure_ic0_imports (inject_globals m hist).2).2.functions ++
        [Func.local_ ⟨[], [], [], _⟩]).length = _
      simp
    have hfuncs : (instrument_for_afl api m hist seed entropy).functions =
        (instrument_function_list api
          (AFL_COVERAGE_MAP_SIZE * (inject_globals m hist).1.1.length)
          ((inject_afl_coverage_export (inject_globals m hist).2 hist
            (inject_globals m hist).1.2).functions.length)
          ((inject_afl_coverage_export (inject_globals m hist).2 hist
            (inject_globals m hist).1.2).functions ++
            [.local_ ⟨[.i32], [], [.i32],
              helper_body (inject_globals m hist).1.1
                (inject_globals m hist).1.2⟩]) 0
          (api.seedFrom
            (match seed with | .Random => entropy | .Static s => s))).1 :=
      rfl
    rw [hfuncs,
      instrument_function_list_get_helper api _ _ _ 0 _ _ (by omega)]
    rw [show (ensure_ic0_imports
        (inject_globals m hist).2).2.functions.length + 1 =
      (inject_afl_coverage_export (inject_globals m hist).2 hist
        (inject_globals m hist).1.2).functions.length from hlen.symm]
    exact List.get?_concat_length _ _


/-- Straight-line runs compose over list concatenation. -/
theorem wasm_run_append :
    ∀ (a b : List Operator) (s : ExecState),
      wasm_run (a ++ b) s = (wasm_run a s).bind (wasm_run b)
  | [], b, s => rfl
  | op :: a, b, s => by
    cases hstep : wasm_step op s with
    | none => simp [wasm_run, hstep]
    | some s1 => simp [wasm_run, hstep, wasm_run_append a b s1]

theorem xor_seg (g : Nat → Nat) :
    ∀ (ids : List Nat) (x : Nat) (stk loc : List Nat) (mem : Nat → Nat),
      wasm_run (ids.flatMap fun gi => [.GlobalGet gi, .I32Xor])
          ⟨x :: stk, loc, g, mem⟩ =
        some ⟨ids.foldl (fun a gi => a ^^^ g gi) x :: stk, loc, g, mem⟩
  | [], x, stk, loc, mem => rfl
  | gi :: ids, x, stk, loc, mem => by
    simp only [List.flatMap_cons, List.cons_append, List.nil_append,
      wasm_run, wasm_step]
    exact xor_seg g ids (x ^^^ g gi) stk loc mem

theorem prev_ids_getD :
    ∀ (n i gbase : Nat), i < n → (prev_ids gbase n).getD i 0 = gbase + i
  | 0, i, gbase => by omega
  | n + 1, 0, gbase => fun _ => rfl
  | n + 1, i + 1, gbase => fun h => by
    show (prev_ids (gbase + 1) n).getD i 0 = gbase + (i + 1)
    rw [prev_ids_getD n i (gbase + 1) (by omega)]
    omega

theorem shift_seg (gbase hist : Nat) :
    ∀ (t : Nat), t ≤ hist - 1 →
    ∀ (g : Nat → Nat) (stk loc : List Nat) (mem : Nat → Nat),
      wasm_run ((List.range' 1 t).reverse.flatMap (fun i =>
          [.GlobalGet ((prev_ids gbase hist).getD (i - 1) 0),
           .I32Const 1, .I32ShrU,
           .GlobalSet ((prev_ids gbase hist).getD i 0)]))
          ⟨stk, loc, g, mem⟩ =
        some ⟨stk, loc,
          fun j => if gbase + 1 ≤ j ∧ j ≤ gbase + t then g (j - 1) / 2
                   else g j, mem⟩
  | 0, ht, g, stk, loc, mem => by
    simp only [List.range', List.reverse_nil, List.flatMap_nil, wasm_run]
    congr 1
    have harg : (fun j => if gbase + 1 ≤ j ∧ j ≤ gbase + 0 then
        g (j - 1) / 2 else g j) = g := by
      funext j
      rw [if_neg (by omega)]
    rw [harg]
  | t + 1, ht, g, stk, loc, mem => by
    have h1 : (1 : Nat) % 2 ^ 32 = 1 := by norm_num
    have h2 : (1 : Nat) % 32 = 1 := by norm_num
    rw [List.range'_concat, List.reverse_append]
    simp only [List.reverse_singleton, List.singleton_append,
      List.flatMap_cons, List.cons_append, List.nil_append, one_mul]
    rw [prev_ids_getD hist (1 + t - 1) gbase (by omega),
      prev_ids_getD hist (1 + t) gbase (by omega)]
    simp only [wasm_run, wasm_step, h1, h2, pow_one]
    rw [shift_seg gbase hist t (by omega)]
    congr 1
    have harg : ∀ j, (if gbase + 1 ≤ j ∧ j ≤ gbase + t then
        (fun j0 => if j0 = gbase + (1 + t) then g (gbase + (1 + t - 1)) / 2
          else g j0) (j - 1) / 2
        else (fun j0 => if j0 = gbase + (1 + t) then
          g (gbase + (1 + t - 1)) / 2 else g j0) j) =
        (if gbase + 1 ≤ j ∧ j ≤ gbase + (t + 1) then g (j - 1) / 2
         else g j) := by
      intro j
      by_cases hc1 : gbase + 1 ≤ j ∧ j ≤ gbase + t
      · rw [if_pos hc1, if_pos (by omega)]
        simp only
        rw [if_neg (by omega)]
      · rw [if_neg hc1]
        by_cases hc2 : j = gbase + (1 + t)
        · subst hc2
          simp only
          rw [if_pos trivial, if_pos (by omega)]
          congr 2
          omega
        · simp only
          rw [if_neg hc2, if_neg (by omega)]
    congr 1
    funext j
    exact harg j



theorem prev_ids_length : ∀ (n gbase : Nat), (prev_ids gbase n).length = n
  | 0, _ => rfl
  | n + 1, gbase => by
    show (prev_ids (gbase + 1) n).length + 1 = n + 1
    rw [prev_ids_length n (gbase + 1)]

theorem middle_seg (mp X cv : Nat) (g mem : Nat → Nat) :
    wasm_run [.GlobalGet mp, .I32Add, .LocalTee 1, .LocalGet 1,
        .I32Load8U ⟨0, 0, 0⟩, .I32Const 1, .I32Add, .I32Store8 ⟨0, 0, 0⟩]
        ⟨[X], [cv, 0], g, mem⟩ =
      some ⟨[], [cv, (X + g mp) % 2 ^ 32],
        g, fun x => if x = (X + g mp) % 2 ^ 32 then
          (mem ((X + g mp) % 2 ^ 32) + 1) % 256 else mem x⟩ := by
  have h3 : ∀ x : Nat, x % 2 ^ 32 % 256 = x % 256 := fun x =>
    Nat.mod_mod_of_dvd x (by norm_num)
  simp only [wasm_run, wasm_step, List.get?, List.length_cons,
    List.length_nil, List.set, Nat.add_zero, h3]
  norm_num

theorem final_seg (hist gbase cv k : Nat) (hpos : 0 < hist)
    (g mem : Nat → Nat) :
    wasm_run [.LocalGet 0, .I32Const 1, .I32ShrU,
        .GlobalSet ((prev_ids gbase hist).getD 0 0)]
        ⟨[], [cv, k], g, mem⟩ =
      some ⟨[], [cv, k],
        fun j => if j = gbase then cv / 2 else g j, mem⟩ := by
  have h1 : (1 : Nat) % 2 ^ 32 = 1 := by norm_num
  have h2 : (1 : Nat) % 32 = 1 := by norm_num
  rw [prev_ids_getD hist 0 gbase hpos]
  simp only [wasm_run, wasm_step, List.get?, h1, h2, pow_one,
    Nat.add_zero]

theorem helper_run (hist : Nat) (hpos : 0 < hist) (gbase c : Nat)
    (g0 mem0 : Nat → Nat) :
    wasm_run (helper_body (prev_ids gbase hist) (gbase + hist))
        ⟨[], [c, 0], g0, mem0⟩ =
      some ⟨[], [c, afl_key hist gbase c g0],
        fun j => if j = gbase then c / 2
          else if gbase + 1 ≤ j ∧ j ≤ gbase + (hist - 1) then
            g0 (j - 1) / 2
          else g0 j,
        fun x => if x = afl_key hist gbase c g0 then
          (mem0 (afl_key hist gbase c g0) + 1) % 256 else mem0 x⟩ := by
  have ha : wasm_run [Operator.LocalGet 0] ⟨[], [c, 0], g0, mem0⟩ =
      some ⟨[c], [c, 0], g0, mem0⟩ := rfl
  rw [helper_body, helper_shift_ops, prev_ids_length]
  rw [wasm_run_append, wasm_run_append, wasm_run_append, wasm_run_append]
  rw [ha]
  simp only [Option.some_bind]
  rw [xor_seg g0 (prev_ids gbase hist) c [] [c, 0] mem0]
  simp only [Option.some_bind]
  rw [middle_seg (gbase + hist)
    ((prev_ids gbase hist).foldl (fun a gi => a ^^^ g0 gi) c) c g0 mem0]
  simp only [Option.some_bind]
  rw [shift_seg gbase hist (hist - 1) (by omega)]
  simp only [Option.some_bind]
  rw [final_seg hist gbase c
    ((((prev_ids gbase hist).foldl (fun a gi => a ^^^ g0 gi) c) +
      g0 (gbase + hist)) % 2 ^ 32) hpos]
  rfl


/-- The `prev_loc` global ids `inject_globals` hands back are the
consecutive indices starting at the input module's global count. -/
theorem inject_prev_loc_globals_ids :
    ∀ (n : Nat) (m : Module),
      (inject_prev_loc_globals n m).1 = prev_ids m.globals.length n
  | 0, _ => rfl
  | n + 1, m => by
    show m.globals.length ::
      (inject_prev_loc_globals n
        { m with globals := m.globals ++ [⟨0, .i32, true, false⟩] }).1 =
      prev_ids m.globals.length (n + 1)
    rw [inject_prev_loc_globals_ids n, prev_ids]
    congr 1
    simp

/-- `inject_prev_loc_globals` adds exactly `n` globals. -/
theorem inject_prev_loc_globals_glen :
    ∀ (n : Nat) (m : Module),
      (inject_prev_loc_globals n m).2.globals.length =
        m.globals.length + n
  | 0, _ => by simp [inject_prev_loc_globals]
  | n + 1, m => by
    show (inject_prev_loc_globals n
        { m with globals := m.globals ++ [⟨0, .i32, true, false⟩] }
      ).2.globals.length = m.globals.length + (n + 1)
    rw [inject_prev_loc_globals_glen n]
    simp
    omega

/-- C8 (counterexample): instrumenting the empty module with history 1 and
static seed 0 under the concrete generator model puts the coverage-export
function at index 2 and the helper at index 3 — the helper's index is
*not* lower than the coverage-export function's, contradicting the claimed
step order. -/
theorem claim_C8_counterexample :
    (instrument_for_afl nat_api empty_module 1 (.Static 0) 0).exports =
      [⟨coverage_export_name, 2⟩] ∧
    (instrument_for_afl nat_api empty_module 1 (.Static 0) 0).functions.get?
        3 = some (.local_ ⟨[.i32], [], [.i32], helper_body [0] 1⟩) ∧
    (instrument_for_afl nat_api empty_module 1 (.Static 0) 0).functions.get?
        2 = some (.local_ ⟨[], [], [],
          .I32Const 0 :: .Call 3 :: coverage_body 1 1 0 1⟩) ∧
    ¬ (3 : Nat) < 2 := by
  refine ⟨rfl, rfl, rfl, by omega⟩

/-- C4: the injected helper takes one `i32` parameter `curr_loc` and, on
the globals `inject_globals` installed (the consecutive `prev_loc` ids
followed by `mem_ptr`), computes
`key = (curr_loc ^ prev_loc[0] ^ … ^ prev_loc[h-1]) + mem_ptr`, increments
the byte at linear-memory address `key` modulo 256, shifts the history
(`prev_loc[i] = prev_loc[i-1] >>> 1` for `i = h-1 … 1`), sets
`prev_loc[0] = curr_loc >>> 1`, and leaves every other global and memory
cell untouched; its single-byte load and store are unaligned accesses at
memory index 0. -/
theorem claim_C4 (hist : Nat)
    (hh : hist = 1 ∨ hist = 2 ∨ hist = 4 ∨ hist = 8)
    (gbase c : Nat) (g0 mem0 : Nat → Nat) :
    (∀ m : Module,
      (inject_globals m hist).1.1 = prev_ids m.globals.length hist ∧
      (inject_globals m hist).1.2 = m.globals.length + hist) ∧
    (∀ ma, Operator.I32Load8U ma ∈
        helper_body (prev_ids gbase hist) (gbase + hist) →
      ma = ⟨0, 0, 0⟩) ∧
    (∀ ma, Operator.I32Store8 ma ∈
        helper_body (prev_ids gbase hist) (gbase + hist) →
      ma = ⟨0, 0, 0⟩) ∧
    (∃ s1 : ExecState,
      wasm_run (helper_body (prev_ids gbase hist) (gbase + hist))
          ⟨[], [c, 0], g0, mem0⟩ = some s1 ∧
      s1.stack = [] ∧
      s1.locals = [c, afl_key hist gbase c g0] ∧
      (∀ a, s1.mem a = if a = afl_key hist gbase c g0 then
        (mem0 (afl_key hist gbase c g0) + 1) % 256 else mem0 a) ∧
      s1.globals gbase = c / 2 ∧
      (∀ i, 1 ≤ i → i < hist →
        s1.globals (gbase + i) = g0 (gbase + i - 1) / 2) ∧
      (∀ j, j < gbase ∨ gbase + hist ≤ j → s1.globals j = g0 j)) := by
  have hpos : 0 < hist := by rcases hh with rfl | rfl | rfl | rfl <;> omega
  refine ⟨?_, ?_, ?_, ?_⟩
  · intro m
    constructor
    · exact inject_prev_loc_globals_ids hist m
    · show (inject_prev_loc_globals hist m).2.globals.length =
        m.globals.length + hist
      exact inject_prev_loc_globals_glen hist m
  · intro ma hma
    simp [helper_body, helper_shift_ops, List.mem_flatMap] at hma
    simp [hma]
  · intro ma hma
    simp [helper_body, helper_shift_ops, List.mem_flatMap] at hma
    simp [hma]
  · refine ⟨_, helper_run hist hpos gbase c g0 mem0, rfl, rfl,
      fun a => rfl, ?_, ?_, ?_⟩
    · show (if gbase = gbase then c / 2 else _) = c / 2
      rw [if_pos rfl]
    · intro i hi1 hi2
      show (if gbase + i = gbase then c / 2 else
        if gbase + 1 ≤ gbase + i ∧ gbase + i ≤ gbase + (hist - 1) then
          g0 (gbase + i - 1) / 2
        else g0 (gbase + i)) = g0 (gbase + i - 1) / 2
      rw [if_neg (by omega), if_pos (by omega)]
    · intro j hj
      show (if j = gbase then c / 2 else
        if gbase + 1 ≤ j ∧ j ≤ gbase + (hist - 1) then g0 (j - 1) / 2
        else g0 j) = g0 j
      rw [if_neg (by omega), if_neg (by omega)]

/-- Witness for C4 at history 2, `gbase = 5`, `curr_loc = 10`, identity
globals and zero memory. -/
theorem claim_C4_witness :
    (∀ m : Module,
      (inject_globals m 2).1.1 = prev_ids m.globals.length 2 ∧
      (inject_globals m 2).1.2 = m.globals.length + 2) ∧
    (∀ ma, Operator.I32Load8U ma ∈
        helper_body (prev_ids 5 2) (5 + 2) → ma = ⟨0, 0, 0⟩) ∧
    (∀ ma, Operator.I32Store8 ma ∈
        helper_body (prev_ids 5 2) (5 + 2) → ma = ⟨0, 0, 0⟩) ∧
    (∃ s1 : ExecState,
      wasm_run (helper_body (prev_ids 5 2) (5 + 2))
          ⟨[], [10, 0], fun j => j, fun _ => 0⟩ = some s1 ∧
      s1.stack = [] ∧
      s1.locals = [10, afl_key 2 5 10 (fun j => j)] ∧
      (∀ a, s1.mem a = if a = afl_key 2 5 10 (fun j => j) then
        ((fun _ => (0 : Nat)) (afl_key 2 5 10 (fun j => j)) + 1) % 256
        else (fun _ => (0 : Nat)) a) ∧
      s1.globals 5 = 10 / 2 ∧
      (∀ i, 1 ≤ i → i < 2 →
        s1.globals (5 + i) = (fun j => j) (5 + i - 1) / 2) ∧
      (∀ j, j < 5 ∨ 5 + 2 ≤ j → s1.globals j = (fun j => j) j)) :=
  claim_C4 2 (Or.inr (Or.inl rfl)) 5 10 (fun j => j) (fun _ => 0)

end Canfuzz
